import Mathlib

/-!
Verification development for the lovecentraltexas property-record
ingestion pipeline.  The JavaScript sources (data normalization, data
validation, quality scoring, rate limiting, scraper factory and the
county scraper adapters) are shallowly embedded below: pure functions
become Lean functions on a small model of JavaScript values, the
stateful network adapters become functions over an explicit script of
HTTP response outcomes, and JavaScript numbers are modelled as exact
rationals.
-/

/-- Model of a JavaScript value as it occurs in the property-data code:
`undefined`, `null`, strings, numbers (as exact rationals; the code
paths modelled never produce `NaN`), booleans, and plain objects as
association lists in insertion order. -/
inductive JsVal where
  | undefV
  | nullV
  | str (s : String)
  | num (q : ℚ)
  | boolV (b : Bool)
  | obj (fields : List (String × JsVal))
deriving Repr

/-- Property access `v[k]`: looks a key up in an object, anything else
(including `undefined` and `null`, which the callers guard) yields
`undefined`. -/
def getField (v : JsVal) (k : String) : JsVal :=
  match v with
  | .obj fs =>
    match fs.find? (fun e => e.1 = k) with
    | some e => e.2
    | none => .undefV
  | _ => .undefV

/-- Split a character list on a separator character, mirroring
JavaScript `path.split(".")` for the one-character separator used by
`getNestedValue` (so the empty string splits to `[""]`). -/
def splitOnChar (sep : Char) : List Char → List (List Char)
  | [] => [[]]
  | c :: cs =>
    let rest := splitOnChar sep cs
    if c = sep then [] :: rest
    else
      match rest with
      | r :: rs => (c :: r) :: rs
      | [] => [[c]]

/-- `path.split(".")` of dataValidation.js, as Lean strings. -/
def splitPath (path : String) : List String :=
  (splitOnChar '.' path.toList).map (fun cs => String.mk cs)

/-- `getNestedValue(obj, path)` from dataValidation.js / the quality
scorer: split the dot-notation path and walk the object, returning
`undefined` as soon as the current value is `null`/`undefined` (which
coincides with `getField` yielding `undefined` on them). -/
def getNestedValue (v : JsVal) (path : String) : JsVal :=
  (splitPath path).foldl getField v

/-- The "missing" test used throughout validation and scoring:
`value === undefined || value === null || value === ""`. -/
def isMissing (v : JsVal) : Bool :=
  match v with
  | .undefV => true
  | .nullV => true
  | .str s => s = ""
  | _ => false

/-- JavaScript truthiness restricted to the modelled values. -/
def truthy (v : JsVal) : Bool :=
  match v with
  | .undefV => false
  | .nullV => false
  | .str s => !(s = "")
  | .num q => !(q = 0)
  | .boolV b => b
  | .obj _ => true

/-- `validatePrice` from dataValidation.js: must be a number (non-`NaN`)
and strictly positive. -/
def validatePrice (price : JsVal) : Bool :=
  match price with
  | .num q => decide (0 < q)
  | _ => false

/-- The fixed status enumeration of dataValidation.js. -/
def validStatuses : List String := ["active", "pending", "sold", "off-market"]

/-- `validateStatus` from dataValidation.js. -/
def validateStatus (status : JsVal) : Bool :=
  match status with
  | .str s => validStatuses.contains s
  | _ => false

/-- `validateCoordinates` from dataValidation.js: both numeric and inside
the Central Texas bounding box. -/
def validateCoordinates (lat lng : JsVal) : Bool :=
  match lat, lng with
  | .num la, .num ln => decide (29 ≤ la ∧ la ≤ 31 ∧ -99 ≤ ln ∧ ln ≤ -97)
  | _, _ => false

/-- The required-field paths of `validateLandParcelData`. -/
def landRequiredFields : List String := ["source", "price", "status", "address.county"]

/-- `validateRequiredFields(data, requiredFields)`: collect, in order,
the paths whose nested value is absent, null or the empty string. -/
def collectMissingFields (data : JsVal) (requiredFields : List String) : List String :=
  requiredFields.filter (fun p => isMissing (getNestedValue data p))

/-- Result object of the composite validators in dataValidation.js. -/
structure ValidationResult where
  isValid : Bool
  missingFields : List String
  invalidPrice : Bool
  invalidStatus : Bool
  invalidCoordinates : Bool
deriving Repr, DecidableEq

/-- `validateLandParcelData` from dataValidation.js: runs the required
field check, the price check, the status check and (when
`address?.coordinates` is truthy) the coordinates check, and combines
them into one result object with independent flags. -/
def validateLandParcelData (parcelData : JsVal) : ValidationResult :=
  let missingFields := collectMissingFields parcelData landRequiredFields
  let priceValid := validatePrice (getField parcelData "price")
  let statusValid := validateStatus (getField parcelData "status")
  let coords := getField (getField parcelData "address") "coordinates"
  let coordinatesValid :=
    if truthy coords then
      validateCoordinates (getField coords "latitude") (getField coords "longitude")
    else
      true
  { isValid := missingFields.isEmpty && priceValid && statusValid && coordinatesValid
    missingFields := missingFields
    invalidPrice := !priceValid
    invalidStatus := !statusValid
    invalidCoordinates := !coordinatesValid }

/-- Characters removed by `normalizePrice` before the numeric match:
`priceString.replace(/[$,\s]/g, "")` (whitespace restricted to the
ASCII whitespace the inputs contain). -/
def isPriceStripChar (c : Char) : Bool :=
  c = '$' || c = ',' || c.isWhitespace

/-- The cleaned string of `normalizePrice`. -/
def cleanedPrice (s : List Char) : List Char :=
  s.filter (fun c => !isPriceStripChar c)

/-- The suffix of the string starting at its first decimal digit, i.e.
where the leftmost match of `/(\d+\.?\d*)/` begins; `none` when the
string has no digit and the regex fails. -/
def firstDigitSuffix : List Char → Option (List Char)
  | [] => none
  | c :: cs => if c.isDigit then some (c :: cs) else firstDigitSuffix cs

/-- Decimal digits to a natural number, most significant first. -/
def digitsToNat (ds : List Char) : ℕ :=
  ds.foldl (fun n c => 10 * n + (c.toNat - '0'.toNat)) 0

/-- `parseFloat` of an integer part and a fraction part, as an exact
rational. -/
def tokenValue (ip fp : List Char) : ℚ :=
  (digitsToNat ip : ℚ) + (digitsToNat fp : ℚ) / 10 ^ fp.length

/-- The leftmost match of `/(\d+\.?\d*)/` and its `parseFloat` value:
from the first digit take the maximal digit run, then an optional dot
followed by a maximal digit run. -/
def matchPriceToken (s : List Char) : Option ℚ :=
  match firstDigitSuffix s with
  | none => none
  | some t =>
    let ip := t.takeWhile Char.isDigit
    let rest := t.dropWhile Char.isDigit
    let fp :=
      match rest with
      | '.' :: r => r.takeWhile Char.isDigit
      | _ => []
    some (tokenValue ip fp)

/-- `normalizePrice` from dataNormalization.js: numbers pass through,
non-strings return 0, strings are cleaned of currency symbols, commas
and whitespace, then the first numeric token is extracted and parsed,
defaulting to 0 when nothing matches. -/
def normalizePrice (priceString : JsVal) : ℚ :=
  match priceString with
  | .num q => q
  | .str s =>
    match matchPriceToken (cleanedPrice s.toList) with
    | some v => v
    | none => 0
  | _ => 0

/-- The numeric fields of a property object that
`calculateDerivedFields` reads; `none` models an absent field (the
normalized records feeding it hold numbers). -/
structure PropertyNums where
  price : Option ℚ
  acreage : Option ℚ
  squareFeet : Option ℚ
  totalSquareFeet : Option ℚ
deriving Repr, DecidableEq

/-- The calculated-fields object returned by `calculateDerivedFields`;
`none` models a field left unset. -/
structure DerivedFields where
  pricePerAcre : Option ℚ
  pricePerSquareFoot : Option ℚ
deriving Repr, DecidableEq

/-- `calculateDerivedFields` from dataNormalization.js, with the three
`if` statements in source order: the guard `x && y && y > 0` on numbers
is `x ≠ 0 ∧ 0 < y`, and the `totalSquareFeet` assignment overwrites the
`squareFeet` one when both guards hold. -/
def calculateDerivedFields (p : PropertyNums) : DerivedFields :=
  let pricePerAcre : Option ℚ :=
    match p.price, p.acreage with
    | some pr, some a => if pr ≠ 0 ∧ 0 < a then some (pr / a) else none
    | _, _ => none
  let ppsf₁ : Option ℚ :=
    match p.price, p.squareFeet with
    | some pr, some s => if pr ≠ 0 ∧ 0 < s then some (pr / s) else none
    | _, _ => none
  let pricePerSquareFoot : Option ℚ :=
    match p.price, p.totalSquareFeet with
    | some pr, some ts => if pr ≠ 0 ∧ 0 < ts then some (pr / ts) else ppsf₁
    | _, _ => ppsf₁
  { pricePerAcre := pricePerAcre, pricePerSquareFoot := pricePerSquareFoot }

/-- `getRequiredFieldsForType` from the quality scorer. -/
def getRequiredFieldsForType (propertyType : String) : List String :=
  let baseFields := ["source", "price", "status", "address.county"]
  if propertyType = "land" then baseFields ++ ["acreage"]
  else if propertyType = "commercial" then baseFields ++ ["propertyType", "totalSquareFeet"]
  else if propertyType = "residential" then baseFields ++ ["bedrooms", "bathrooms", "squareFeet"]
  else baseFields

/-- `getDetailFieldsForType` from the quality scorer. -/
def getDetailFieldsForType (propertyType : String) : List String :=
  if propertyType = "land" then
    ["zoning", "waterRights.hasRights", "utilities.electricity", "roadAccess"]
  else if propertyType = "commercial" then
    ["zoning", "yearBuilt", "parkingSpaces", "proximityToInfrastructure.highway.distance"]
  else if propertyType = "residential" then
    ["yearBuilt", "lotSize", "amenities", "schoolDistricts.elementary"]
  else []

/-- The five location sub-fields scored by `calculateCompletenessScore`. -/
def locationFields : List String :=
  ["address.street", "address.city", "address.county",
   "address.coordinates.latitude", "address.coordinates.longitude"]

/-- The market-data fields scored by `calculateCompletenessScore`. -/
def marketFields : List String := ["listingDate", "daysOnMarket", "status"]

/-- The SEO fields scored by `calculateCompletenessScore`. -/
def seoFields : List String := ["seoSlug", "description", "keywords"]

/-- Count of fields of the list whose nested value is present
(`value !== undefined && value !== null && value !== ""`). -/
def presentCount (data : JsVal) (fields : List String) : ℕ :=
  (fields.filter (fun f => !isMissing (getNestedValue data f))).length

/-- Count of fields looked up directly (`data[field]`), as the market
and SEO components do. -/
def presentCountDirect (data : JsVal) (fields : List String) : ℕ :=
  (fields.filter (fun f => !isMissing (getField data f))).length

/-- The exact score accumulated by `calculateCompletenessScore` before
`Math.round`: five independently scaled components (40/20/20/10/10). -/
def completenessScoreQ (data : JsVal) (propertyType : String) : ℚ :=
  let requiredFields := getRequiredFieldsForType propertyType
  let detailFields := getDetailFieldsForType propertyType
  (presentCount data requiredFields : ℚ) / (requiredFields.length : ℚ) * 40 +
    (presentCount data locationFields : ℚ) / (locationFields.length : ℚ) * 20 +
    (presentCount data detailFields : ℚ) / (detailFields.length : ℚ) * 20 +
    (presentCountDirect data marketFields : ℚ) / (marketFields.length : ℚ) * 10 +
    (presentCountDirect data seoFields : ℚ) / (seoFields.length : ℚ) * 10

/-- `calculateCompletenessScore(data, propertyType)`: the weighted sum
rounded with `Math.round` (round half up, `⌊x + 1/2⌋`). -/
def calculateCompletenessScore (data : JsVal) (propertyType : String) : ℤ :=
  round (completenessScoreQ data propertyType)

/-- `response.ok` of the Fetch API: status in the 2xx range. -/
def responseOk (status : ℕ) : Bool :=
  200 ≤ status && status < 300

/-- Base URL of the Hays CAD scraper. -/
def haysBaseUrl : String := "https://esearch.hayscad.com"

/-- `HaysCADScraper.searchByPropertyId`, abstracted over the HTTP status
the probe of `baseUrl/Property/View/{id}` returns: 404 and the manual
redirects 301/302 resolve to `null`, other non-ok statuses throw, and
an ok response resolves to the constructed property URL. -/
def searchByPropertyId (propertyId : ℕ) (status : ℕ) : Except String (Option String) :=
  let propertyUrl := haysBaseUrl ++ "/Property/View/" ++ toString propertyId
  if status = 404 then .ok none
  else if status = 301 || status = 302 then .ok none
  else if !responseOk status then .error ("Property lookup failed: " ++ toString status)
  else .ok (some propertyUrl)

/-- Per-domain rate limit configuration of rateLimiter.js. -/
structure RateLimitConfig where
  requestsPerSecond : ℚ
  windowMs : ℤ
deriving Repr, DecidableEq

/-- The default configuration: 0.5 requests per second over a 2000 ms
window. -/
def defaultRateConfig : RateLimitConfig := ⟨1 / 2, 2000⟩

/-- `getRateLimitConfig(domain)`: the three domain-specific overrides,
else the default. -/
def getRateLimitConfig (domain : String) : RateLimitConfig :=
  if domain = "hayscad.org" then ⟨1 / 2, 2000⟩
  else if domain = "traviscad.org" then ⟨1 / 2, 2000⟩
  else if domain = "mls.com" then ⟨1, 1000⟩
  else defaultRateConfig

/-- `Math.ceil((config.requestsPerSecond * config.windowMs) / 1000)`,
the admission threshold of `canMakeRequest`. -/
def maxRequests (config : RateLimitConfig) : ℤ :=
  ⌈config.requestsPerSecond * (config.windowMs : ℚ) / 1000⌉

/-- `canMakeRequest(domain)` from rateLimiter.js, with the per-domain
store entry made explicit: `none` is the store-miss branch (an empty
entry is created and the request admitted); otherwise timestamps at or
before `now - windowMs` are dropped in place and the remaining count is
compared to `maxRequests`.  Returns the admission decision and the
pruned timestamp list the store now holds. -/
def canMakeRequest (config : RateLimitConfig) (store : Option (List ℤ)) (now : ℤ) :
    Bool × List ℤ :=
  match store with
  | none => (true, [])
  | some requests =>
    let windowStart := now - config.windowMs
    let kept := requests.filter (fun timestamp => windowStart < timestamp)
    (decide ((kept.length : ℤ) < maxRequests config), kept)

/-- Scraper classes are abstracted to an identifier; `new ScraperClass`
is modelled as returning that identifier. -/
abbrev ScraperClass := ℕ

/-- The initial `scraperRegistry` of scraperFactory.js, keys in
insertion order. -/
def initialScraperRegistry : List (String × ScraperClass) :=
  [("traviscad", 0), ("hayscad", 1), ("mls", 2), ("zoning", 3)]

/-- `source.toLowerCase()`: JavaScript lowercasing, modelled
characterwise. -/
def toLowerCase (s : String) : String :=
  String.mk (s.toList.map Char.toLower)

/-- `registry[key]` lookup. -/
def lookupSource (registry : List (String × ScraperClass)) (key : String) :
    Option ScraperClass :=
  (registry.find? (fun e => e.1 = key)).map (fun e => e.2)

/-- `registry[key] = value`: JavaScript object assignment keeps an
existing string key in place and appends a new one. -/
def setSource (registry : List (String × ScraperClass)) (key : String) (c : ScraperClass) :
    List (String × ScraperClass) :=
  if registry.any (fun e => e.1 = key) then
    registry.map (fun e => if e.1 = key then (key, c) else e)
  else
    registry ++ [(key, c)]

/-- `getAvailableSources()` from scraperFactory.js: `Object.keys`. -/
def getAvailableSources (registry : List (String × ScraperClass)) : List String :=
  registry.map (fun e => e.1)

/-- The registry after `registerScraper("WilliamsonCAD", ...)` on the
initial registry, used as a concrete instance below. -/
def wcadRegistry : List (String × ScraperClass) :=
  [("traviscad", 0), ("hayscad", 1), ("mls", 2), ("zoning", 3), ("williamsoncad", 7)]

/-- `createScraper(source)` from scraperFactory.js: case-insensitive
lookup; an unknown source throws an error listing the available
sources. -/
def createScraper (registry : List (String × ScraperClass)) (source : String) :
    Except String ScraperClass :=
  match lookupSource registry (toLowerCase source) with
  | some c => .ok c
  | none =>
    .error ("Unknown scraper source: " ++ source ++ ". Available sources: " ++
      String.intercalate ", " (getAvailableSources registry))

/-- `registerScraper(source, ScraperClass)` from scraperFactory.js:
rejects an empty source identifier and a class not extending
`BaseScraper` (the inheritance test is abstracted to a boolean), then
stores the class under the lowercased identifier. -/
def registerScraper (registry : List (String × ScraperClass)) (source : String)
    (extendsBaseScraper : Bool) (c : ScraperClass) :
    Except String (List (String × ScraperClass)) :=
  if source = "" then .error "Source identifier must be a non-empty string"
  else if !extendsBaseScraper then .error "ScraperClass must extend BaseScraper"
  else .ok (setSource registry (toLowerCase source) c)

/-- Outcome of one `fetch` call inside `fetchWithRetry`: a response with
a status, an `AbortError`/timeout-message error, or another network
error. -/
inductive FetchStep where
  | resp (status : ℕ)
  | abortErr
  | netErr
deriving Repr, DecidableEq

/-- The errors `fetchWithRetry` can throw: the `HTTP {status}` errors it
constructs, and the two network error kinds (standard HTTP status texts
do not contain the lowercase substring "timeout", so only `abortErr`
satisfies the catch block's timeout test). -/
inductive JsFetchError where
  | http (status : ℕ)
  | abortOrTimeout
  | network
deriving Repr, DecidableEq

/-- The catch block's `error.name === "AbortError" ||
error.message.includes("timeout")` test. -/
def timeoutLike (e : JsFetchError) : Bool :=
  match e with
  | .abortOrTimeout => true
  | _ => false

/-- `Math.min(1000 * Math.pow(2, attempt), 30000)`, the backoff delay in
milliseconds before the next attempt. -/
def delayFor (attempt : ℕ) : ℕ :=
  min (1000 * 2 ^ attempt) 30000

/-- Result of a `fetchWithRetry` run: success or failure with the number
of fetch attempts performed and the backoff sleeps taken, or
`outOfScript` when the run would perform more fetches than the script
provides. -/
inductive FetchResult where
  | success (attempts : ℕ) (delays : List ℕ)
  | failure (err : JsFetchError) (attempts : ℕ) (delays : List ℕ)
  | outOfScript
deriving Repr, DecidableEq

mutual

/-- The `for (attempt = 0; attempt <= maxRetries; attempt++)` loop body
of `fetchWithRetry` (baseScraper.js), abstracted over the script of
fetch outcomes: a 2xx response returns; a 4xx other than 429 throws
`HTTP {status}` into the catch block; otherwise (429, 5xx, or any other
non-ok status) the loop sleeps and retries while attempts remain and
throws into the catch block on the last attempt; a fetch error goes to
the catch block directly. -/
def fetchAttempt (maxRetries : ℕ) : List FetchStep → ℕ → List ℕ → FetchResult
  | [], _, _ => .outOfScript
  | .resp status :: rest, attempt, delays =>
    if 200 ≤ status ∧ status < 300 then
      .success (attempt + 1) delays
    else if 400 ≤ status ∧ status < 500 ∧ status ≠ 429 then
      fetchCatch maxRetries rest attempt delays (.http status)
    else if attempt < maxRetries then
      fetchAttempt maxRetries rest (attempt + 1) (delays ++ [delayFor attempt])
    else
      fetchCatch maxRetries rest attempt delays (.http status)
  | .abortErr :: rest, attempt, delays =>
    fetchCatch maxRetries rest attempt delays .abortOrTimeout
  | .netErr :: rest, attempt, delays =>
    fetchCatch maxRetries rest attempt delays .network
termination_by script _ _ => 2 * script.length

/-- The catch block of `fetchWithRetry`: timeout-like errors sleep and
retry while attempts remain; on the last attempt the error is rethrown;
any other error also sleeps and retries.  The retry re-enters the loop
on the remaining script. -/
def fetchCatch (maxRetries : ℕ) (rest : List FetchStep) (attempt : ℕ) (delays : List ℕ)
    (err : JsFetchError) : FetchResult :=
  if timeoutLike err ∧ attempt < maxRetries then
    fetchAttempt maxRetries rest (attempt + 1) (delays ++ [delayFor attempt])
  else if attempt = maxRetries then
    .failure err (attempt + 1) delays
  else
    fetchAttempt maxRetries rest (attempt + 1) (delays ++ [delayFor attempt])
termination_by 2 * rest.length + 1

end

/-- `fetchWithRetry(url, options, maxRetries)` over a script of fetch
outcomes, starting at attempt 0 with no sleeps taken. -/
def fetchWithRetry (script : List FetchStep) (maxRetries : ℕ := 3) : FetchResult :=
  fetchAttempt maxRetries script 0 []

/-- Observable outcome of a `WilliamsonCADScraper` session-based call:
success or a thrown generic error, each with the number of search
requests issued and the number of session refreshes performed on
401/403, or `outOfScript` when the call issues more requests than the
finite response script provides (an all-401/403 script never
terminates the recursion). -/
inductive SessionCallResult where
  | success (attempts : ℕ) (refreshes : ℕ)
  | failure (status : ℕ) (attempts : ℕ)
  | outOfScript (attempts : ℕ) (refreshes : ℕ)
deriving Repr, DecidableEq

/-- `WilliamsonCADScraper.searchByAddress` (and identically
`searchByParcelId` / `getPropertyDetails`), abstracted over the script
of HTTP statuses its successive search requests receive: an ok response
parses and returns; a 401/403 clears the session, re-establishes it via
`ensureValidSession` and re-invokes the method recursively with no
bound and no `SessionExpiredError`; any other non-ok status throws
`Search failed: {status}`. -/
def wcadSearchByAddress : List ℕ → ℕ → ℕ → SessionCallResult
  | [], attempts, refreshes => .outOfScript attempts refreshes
  | status :: rest, attempts, refreshes =>
    if 200 ≤ status ∧ status < 300 then
      .success (attempts + 1) refreshes
    else if status = 401 ∨ status = 403 then
      wcadSearchByAddress rest (attempts + 1) (refreshes + 1)
    else
      .failure status (attempts + 1)

/-- One item of the array `batchScrapeProperties` returns. -/
structure BatchItem where
  parcelId : String
  success : Bool
  data : Option ℕ
  error : Option String
deriving Repr, DecidableEq

/-- The body of the `for (const parcelId of parcelIds)` loop of
`batchScrapeProperties` (HaysCADScraper and TravisCADScraper alike):
`scrapeProperty(parcelId)` either resolves to data or throws, and the
pushed item records the identifier with either the data or the error
message.  `scrapeProperty` is abstracted to a function from identifier
to outcome, its scraped record to an opaque value. -/
def batchItemFor (scrapeProperty : String → Except String ℕ) (parcelId : String) : BatchItem :=
  match scrapeProperty parcelId with
  | .ok d => { parcelId := parcelId, success := true, data := some d, error := none }
  | .error e => { parcelId := parcelId, success := false, data := none, error := some e }

/-- `batchScrapeProperties(parcelIds)`: iterate the identifiers in
order, pushing one result each; a thrown error is caught per item and
recorded, never aborting the loop. -/
def batchScrapeProperties (scrapeProperty : String → Except String ℕ) :
    List String → List BatchItem
  | [] => []
  | parcelId :: rest =>
    batchItemFor scrapeProperty parcelId :: batchScrapeProperties scrapeProperty rest

/-- Helper: `wcadSearchByAddress` on a script of nothing but 403s keeps
refreshing the session and retrying until the script is exhausted. -/
theorem wcadSearchByAddress_replicate (n attempts refreshes : ℕ) :
    wcadSearchByAddress (List.replicate n 403) attempts refreshes =
      .outOfScript (attempts + n) (refreshes + n) := by
  induction n generalizing attempts refreshes with
  | zero => simp [wcadSearchByAddress]
  | succ k ih =>
    rw [List.replicate_succ]
    simp only [wcadSearchByAddress]
    norm_num
    rw [ih]
    congr 1 <;> omega

/-- Helper: a missing value (absent, null or empty string) never passes
`validatePrice`. -/
theorem validatePrice_of_isMissing (v : JsVal) (h : isMissing v = true) :
    validatePrice v = false := by
  cases v <;> simp_all [isMissing, validatePrice]

/-- Helper: a missing value never passes `validateStatus`. -/
theorem validateStatus_of_isMissing (v : JsVal) (h : isMissing v = true) :
    validateStatus v = false := by
  cases v <;> simp_all [isMissing, validateStatus, validStatuses]

/-- Helper: `takeWhile` stops exactly at the first failing element after
an all-satisfying prefix. -/
theorem takeWhile_append_of_all {p : Char → Bool} (ip : List Char) (b : Char) (t : List Char)
    (hip : ∀ c ∈ ip, p c = true) (hb : p b = false) :
    (ip ++ b :: t).takeWhile p = ip := by
  induction ip with
  | nil => simp [List.takeWhile_cons, hb]
  | cons c cs ih =>
    have hc : p c = true := hip c (by simp)
    simp [List.takeWhile_cons, hc, ih (fun x hx => hip x (by simp [hx]))]

/-- Helper: `dropWhile` drops exactly the all-satisfying prefix. -/
theorem dropWhile_append_of_all {p : Char → Bool} (ip : List Char) (b : Char) (t : List Char)
    (hip : ∀ c ∈ ip, p c = true) (hb : p b = false) :
    (ip ++ b :: t).dropWhile p = b :: t := by
  induction ip with
  | nil => simp [List.dropWhile_cons, hb]
  | cons c cs ih =>
    have hc : p c = true := hip c (by simp)
    simp only [List.cons_append, List.dropWhile_cons, hc]
    exact ih (fun x hx => hip x (by simp [hx]))

/-- Helper: `takeWhile` of an all-satisfying list is the list itself. -/
theorem takeWhile_eq_self_of_all {p : Char → Bool} (l : List Char)
    (h : ∀ c ∈ l, p c = true) : l.takeWhile p = l := by
  induction l with
  | nil => rfl
  | cons c cs ih =>
    simp [List.takeWhile_cons, h c (by simp), ih (fun x hx => h x (by simp [hx]))]

/-- Helper: `dropWhile` of an all-satisfying list is empty. -/
theorem dropWhile_eq_nil_of_all {p : Char → Bool} (l : List Char)
    (h : ∀ c ∈ l, p c = true) : l.dropWhile p = [] := by
  induction l with
  | nil => rfl
  | cons c cs ih =>
    simp only [List.dropWhile_cons, h c (by simp)]
    exact ih (fun x hx => h x (by simp [hx]))

/-- Helper: with no digit in the string the numeric-token regex does not
match. -/
theorem firstDigitSuffix_none_of_no_digit (l : List Char)
    (h : ∀ c ∈ l, c.isDigit = false) : firstDigitSuffix l = none := by
  induction l with
  | nil => rfl
  | cons c cs ih =>
    simp only [firstDigitSuffix, h c (by simp), Bool.false_eq_true, if_false]
    exact ih (fun x hx => h x (by simp [hx]))

/-- Helper: a pointwise implication between filter predicates cannot
shrink the filtered length. -/
theorem length_filter_mono {α : Type} (l : List α) (p q : α → Bool)
    (h : ∀ a ∈ l, p a = true → q a = true) :
    (l.filter p).length ≤ (l.filter q).length := by
  induction l with
  | nil => simp
  | cons hd tl ih =>
    have htl := ih (fun a ha hpa => h a (by simp [ha]) hpa)
    rw [List.filter_cons, List.filter_cons]
    by_cases hp : p hd = true
    · have hq := h hd (by simp) hp
      rw [if_pos hp, if_pos hq]
      simpa using htl
    · rw [if_neg hp]
      by_cases hq : q hd = true
      · rw [if_pos hq]
        simp only [List.length_cons]
        omega
      · rw [if_neg hq]
        exact htl

/-- Helper: `Math.round` (`⌊x + 1/2⌋`) is monotone. -/
theorem round_mono_q {a b : ℚ} (h : a ≤ b) : round a ≤ round b := by
  rw [round_eq, round_eq]
  exact Int.floor_le_floor (by linarith)

/-- Helper: each score component `count / length * weight` is monotone
in the count (including a zero denominator, where both sides are 0). -/
theorem presentCount_div_mono (c₁ c₂ n : ℕ) (w : ℚ) (hw : 0 ≤ w) (h : c₁ ≤ c₂) :
    (c₁ : ℚ) / (n : ℚ) * w ≤ (c₂ : ℚ) / (n : ℚ) * w := by
  rcases Nat.eq_zero_or_pos n with h0 | hpos
  · simp [h0]
  · have hn : (0 : ℚ) < (n : ℚ) := by exact_mod_cast hpos
    gcongr

/-- Helper: updating a key in the registry makes it found under that
key. -/
theorem lookupSource_setSource_self (registry : List (String × ScraperClass))
    (key : String) (c : ScraperClass) :
    lookupSource (setSource registry key c) key = some c := by
  unfold setSource
  by_cases hany : registry.any (fun e => e.1 = key) = true
  · rw [if_pos hany]
    induction registry with
    | nil => simp at hany
    | cons e rest ih =>
      by_cases he : e.1 = key
      · simp [lookupSource, List.find?, he]
      · have hrest : rest.any (fun x => x.1 = key) = true := by
          simp only [List.any_cons] at hany
          rcases Bool.or_eq_true_iff.mp hany with h | h
          · exact absurd (by simpa using h) he
          · exact h
        simp only [List.map_cons, if_neg he]
        simp only [lookupSource, List.find?] at ih ⊢
        rw [show (decide (e.1 = key)) = false by simpa using he]
        exact ih hrest
  · rw [if_neg hany]
    have hnone : registry.find? (fun e => e.1 = key) = none := by
      rw [List.find?_eq_none]
      intro x hx
      simp only [List.any_eq_true, not_exists, not_and] at hany
      simpa using fun h => (hany x hx) (by simpa using h)
    unfold lookupSource
    rw [List.find?_append, hnone]
    simp [List.find?]

/-- Helper: after updating a key it appears among the available
sources. -/
theorem mem_getAvailableSources_setSource (registry : List (String × ScraperClass))
    (key : String) (c : ScraperClass) :
    key ∈ getAvailableSources (setSource registry key c) := by
  unfold setSource getAvailableSources
  by_cases hany : registry.any (fun e => e.1 = key) = true
  · rw [if_pos hany]
    rcases List.any_eq_true.mp hany with ⟨e, he, heq⟩
    have hek : e.1 = key := by simpa using heq
    have hmem : (key, c) ∈ registry.map (fun x => if x.1 = key then (key, c) else x) :=
      List.mem_map.mpr ⟨e, he, by simp [hek]⟩
    exact List.mem_map.mpr ⟨(key, c), hmem, rfl⟩
  · rw [if_neg hany]
    simp

/-- C1: the claim says a 4xx response other than 429 makes
`fetchWithRetry` fail immediately with no further attempts.  The code
instead throws the `HTTP {status}` error inside its own `try`, so the
`catch` block treats it like any other error and retries with backoff:
with `maxRetries = 3` and HTTP 404 on every attempt, 4 fetch attempts
are performed with sleeps of 1000, 2000 and 4000 ms between them before
the last error is rethrown. -/
theorem c1_fetchWithRetry_client_error_retried :
    fetchWithRetry [.resp 404, .resp 404, .resp 404, .resp 404] 3 =
      .failure (.http 404) 4 [1000, 2000, 4000] := by
  simp [fetchWithRetry, fetchAttempt, fetchCatch, delayFor, timeoutLike]

/-- C2: the claim says a 401/403 response triggers exactly one session
refresh and one retry, a second failure surfacing as
`SessionExpiredError`.  The code instead re-invokes the method
recursively on every 401/403 with no bound: after two 403s it makes a
third attempt (two refreshes) and succeeds, and on a script of nothing
but 403s it refreshes and retries once per response with no error ever
surfaced. -/
theorem c2_wcadSearch_retry_unbounded :
    wcadSearchByAddress [403, 403, 200] 0 0 = .success 3 2 ∧
    ∀ n : ℕ, wcadSearchByAddress (List.replicate n 403) 0 0 = .outOfScript n n := by
  constructor
  · decide
  · intro n
    rw [wcadSearchByAddress_replicate]
    congr 1 <;> omega

/-- C3: `batchScrapeProperties` returns exactly one result per
identifier in input order (the optional indexing agrees with the input
list mapped through the per-item transform), a throwing scrape yields
`success = false` with the error message, a resolving scrape yields
`success = true` with the data, and each item depends only on its own
identifier's scrape outcome, so one failure cannot affect any other
item. -/
theorem c3_batchScrapeProperties_per_item (scrapeProperty : String → Except String ℕ)
    (parcelIds : List String) :
    (∀ i : ℕ, (batchScrapeProperties scrapeProperty parcelIds)[i]? =
      (parcelIds[i]?).map (batchItemFor scrapeProperty)) ∧
    (∀ id e, scrapeProperty id = .error e →
      batchItemFor scrapeProperty id = ⟨id, false, none, some e⟩) ∧
    (∀ id d, scrapeProperty id = .ok d →
      batchItemFor scrapeProperty id = ⟨id, true, some d, none⟩) ∧
    (∀ (g : String → Except String ℕ) (id : String), scrapeProperty id = g id →
      batchItemFor scrapeProperty id = batchItemFor g id) := by
  refine ⟨?_, ?_, ?_, ?_⟩
  · intro i
    induction parcelIds generalizing i with
    | nil => simp [batchScrapeProperties]
    | cons hd tl ih =>
      cases i with
      | zero => simp [batchScrapeProperties]
      | succ j => simpa [batchScrapeProperties] using ih j
  · intro id e h
    simp [batchItemFor, h]
  · intro id d h
    simp [batchItemFor, h]
  · intro g id h
    simp [batchItemFor, h]

/-- Witness for C3: on `["a", "bad", "c"]` with a scrape that throws on
"bad" only, three results come back in input order, the middle one
failed with the error message and the outer two succeeded. -/
theorem c3_batchScrapeProperties_witness :
    (batchScrapeProperties
        (fun id => if id = "bad" then .error "scrape failed" else .ok 7)
        ["a", "bad", "c"])[1]? =
      some ⟨"bad", false, none, some "scrape failed"⟩ ∧
    (batchScrapeProperties
        (fun id => if id = "bad" then .error "scrape failed" else .ok 7)
        ["a", "bad", "c"])[0]? =
      some ⟨"a", true, some 7, none⟩ ∧
    (batchScrapeProperties
        (fun id => if id = "bad" then .error "scrape failed" else .ok 7)
        ["a", "bad", "c"])[2]? =
      some ⟨"c", true, some 7, none⟩ := by
  have h := c3_batchScrapeProperties_per_item
    (fun id => if id = "bad" then .error "scrape failed" else .ok 7) ["a", "bad", "c"]
  refine ⟨?_, ?_, ?_⟩
  · rw [h.1 1, show (["a", "bad", "c"][1]?) = some "bad" from rfl]
    simp only [Option.map_some']
    rw [h.2.1 "bad" "scrape failed" rfl]
  · rw [h.1 0, show (["a", "bad", "c"][0]?) = some "a" from rfl]
    simp only [Option.map_some']
    rw [h.2.2.1 "a" 7 rfl]
  · rw [h.1 2, show (["a", "bad", "c"][2]?) = some "c" from rfl]
    simp only [Option.map_some']
    rw [h.2.2.1 "c" 7 rfl]

/-- C4: on a record whose `price`, `status` and `address.county` are all
missing, `validateLandParcelData` returns `isValid = false`, lists all
three paths in `missingFields`, and sets the `invalidPrice` and
`invalidStatus` flags in the same result object: every check category
is evaluated and reported together. -/
theorem c4_validateLandParcelData_reports_all (parcelData : JsVal)
    (hp : isMissing (getNestedValue parcelData "price") = true)
    (hs : isMissing (getNestedValue parcelData "status") = true)
    (hc : isMissing (getNestedValue parcelData "address.county") = true) :
    (validateLandParcelData parcelData).isValid = false ∧
    "price" ∈ (validateLandParcelData parcelData).missingFields ∧
    "status" ∈ (validateLandParcelData parcelData).missingFields ∧
    "address.county" ∈ (validateLandParcelData parcelData).missingFields ∧
    (validateLandParcelData parcelData).invalidPrice = true ∧
    (validateLandParcelData parcelData).invalidStatus = true := by
  have hp' : getField parcelData "price" = getNestedValue parcelData "price" := rfl
  have hs' : getField parcelData "status" = getNestedValue parcelData "status" := rfl
  have hmp : "price" ∈ collectMissingFields parcelData landRequiredFields :=
    List.mem_filter.mpr ⟨by decide, hp⟩
  have hms : "status" ∈ collectMissingFields parcelData landRequiredFields :=
    List.mem_filter.mpr ⟨by decide, hs⟩
  have hmc : "address.county" ∈ collectMissingFields parcelData landRequiredFields :=
    List.mem_filter.mpr ⟨by decide, hc⟩
  have hne : (collectMissingFields parcelData landRequiredFields).isEmpty = false := by
    have h0 := List.ne_nil_of_mem hmp
    simpa [List.isEmpty_iff] using h0
  have hpv : validatePrice (getField parcelData "price") = false := by
    rw [hp']
    exact validatePrice_of_isMissing _ hp
  have hsv : validateStatus (getField parcelData "status") = false := by
    rw [hs']
    exact validateStatus_of_isMissing _ hs
  simp [validateLandParcelData, hne, hpv, hsv, hmp, hms, hmc]

/-- Witness for C4: the record `{source: "hayscad"}` is missing all
three fields and gets every category reported at once. -/
theorem c4_validateLandParcelData_witness :
    (validateLandParcelData (JsVal.obj [("source", JsVal.str "hayscad")])).isValid = false ∧
    "price" ∈ (validateLandParcelData (JsVal.obj [("source", JsVal.str "hayscad")])).missingFields ∧
    "status" ∈ (validateLandParcelData (JsVal.obj [("source", JsVal.str "hayscad")])).missingFields ∧
    "address.county" ∈
      (validateLandParcelData (JsVal.obj [("source", JsVal.str "hayscad")])).missingFields ∧
    (validateLandParcelData (JsVal.obj [("source", JsVal.str "hayscad")])).invalidPrice = true ∧
    (validateLandParcelData (JsVal.obj [("source", JsVal.str "hayscad")])).invalidStatus = true :=
  c4_validateLandParcelData_reports_all (JsVal.obj [("source", JsVal.str "hayscad")])
    (by decide) (by decide) (by decide)

/-- C5: when cleaning a string of currency symbols, commas and
whitespace leaves exactly one numeric token (digits, optionally a dot
and further digits), `normalizePrice` returns that token's exact
value; when the cleaned string has no digit at all (so no numeric token
parses, e.g. "n/a"), it returns 0.  The function is total over all
modelled input values, so it never returns null and never throws. -/
theorem c5_normalizePrice_extracts_numeric_token (s : String) :
    (∀ ip fp : List Char, ip ≠ [] → (∀ c ∈ ip, c.isDigit = true) →
      (∀ c ∈ fp, c.isDigit = true) →
      cleanedPrice s.toList = ip ++ '.' :: fp →
      normalizePrice (.str s) = (digitsToNat ip : ℚ) + (digitsToNat fp : ℚ) / 10 ^ fp.length) ∧
    (∀ ip : List Char, ip ≠ [] → (∀ c ∈ ip, c.isDigit = true) →
      cleanedPrice s.toList = ip →
      normalizePrice (.str s) = (digitsToNat ip : ℚ)) ∧
    ((∀ c ∈ cleanedPrice s.toList, c.isDigit = false) →
      normalizePrice (.str s) = 0) := by
  refine ⟨?_, ?_, ?_⟩
  · intro ip fp hne hip hfp hclean
    obtain ⟨d, ds, rfl⟩ : ∃ d ds, ip = d :: ds := by
      cases ip with
      | nil => exact absurd rfl hne
      | cons d ds => exact ⟨d, ds, rfl⟩
    have hdot : ('.' : Char).isDigit = false := by decide
    have hfirst : firstDigitSuffix (cleanedPrice s.toList) =
        some ((d :: ds) ++ '.' :: fp) := by
      rw [hclean]
      simp [firstDigitSuffix, hip d (by simp)]
    have htake : ((d :: ds) ++ '.' :: fp).takeWhile Char.isDigit = d :: ds :=
      takeWhile_append_of_all _ _ _ hip hdot
    have hdrop : ((d :: ds) ++ '.' :: fp).dropWhile Char.isDigit = '.' :: fp :=
      dropWhile_append_of_all _ _ _ hip hdot
    have hfptake : fp.takeWhile Char.isDigit = fp := takeWhile_eq_self_of_all _ hfp
    simp only [normalizePrice, matchPriceToken, hfirst, htake, hdrop, hfptake, tokenValue]
  · intro ip hne hip hclean
    obtain ⟨d, ds, rfl⟩ : ∃ d ds, ip = d :: ds := by
      cases ip with
      | nil => exact absurd rfl hne
      | cons d ds => exact ⟨d, ds, rfl⟩
    have hfirst : firstDigitSuffix (cleanedPrice s.toList) = some (d :: ds) := by
      rw [hclean]
      simp [firstDigitSuffix, hip d (by simp)]
    have htake : (d :: ds).takeWhile Char.isDigit = d :: ds :=
      takeWhile_eq_self_of_all _ hip
    have hdrop : (d :: ds).dropWhile Char.isDigit = [] :=
      dropWhile_eq_nil_of_all _ hip
    simp only [normalizePrice, matchPriceToken, hfirst, htake, hdrop, tokenValue]
    simp [digitsToNat]
  · intro h
    have hfirst : firstDigitSuffix (cleanedPrice s.toList) = none :=
      firstDigitSuffix_none_of_no_digit _ h
    simp only [normalizePrice, matchPriceToken, hfirst]

/-- Witness for C5: `"$1,250,000.50"` yields exactly 1250000.50 and
`"n/a"` yields 0. -/
theorem c5_normalizePrice_witness :
    normalizePrice (.str "$1,250,000.50") = 1250000.50 ∧
    normalizePrice (.str "n/a") = 0 := by
  constructor
  · have h := (c5_normalizePrice_extracts_numeric_token "$1,250,000.50").1
      ['1', '2', '5', '0', '0', '0', '0'] ['5', '0']
      (by decide) (by decide) (by decide) (by decide)
    have h1 : digitsToNat ['1', '2', '5', '0', '0', '0', '0'] = 1250000 := by decide
    have h2 : digitsToNat ['5', '0'] = 50 := by decide
    rw [h, h1, h2]
    norm_num
  · exact (c5_normalizePrice_extracts_numeric_token "n/a").2.2 (by decide)

/-- Counterexample for C6: on a record with `price = 100`,
`squareFeet = 10` and `totalSquareFeet = 50` all present and positive,
`calculateDerivedFields` does not set
`pricePerSquareFoot = price / squareFeet = 10` as the claim states; the
later `totalSquareFeet` assignment overwrites it with `100 / 50 = 2`. -/
theorem c6_calculateDerivedFields_counterexample :
    (calculateDerivedFields ⟨some 100, none, some 10, some 50⟩).pricePerSquareFoot ≠
      some ((100 : ℚ) / 10) := by
  simp only [calculateDerivedFields]
  norm_num

/-- C6 (amended): `pricePerSquareFoot` is `price / totalSquareFeet`
whenever `price` is truthy and `totalSquareFeet` is present and
positive — `totalSquareFeet` takes precedence, and `price / squareFeet`
is used only when the `totalSquareFeet` branch does not apply; the
field is omitted when no denominator qualifies, and `pricePerAcre` is
computed independently from `acreage` under the same pattern. -/
theorem c6_calculateDerivedFields_amended (p : PropertyNums) :
    (∀ pr ts, p.price = some pr → pr ≠ 0 → p.totalSquareFeet = some ts → 0 < ts →
      (calculateDerivedFields p).pricePerSquareFoot = some (pr / ts)) ∧
    (∀ pr s, p.price = some pr → pr ≠ 0 → p.squareFeet = some s → 0 < s →
      (∀ ts, p.totalSquareFeet = some ts → ¬(0 < ts)) →
      (calculateDerivedFields p).pricePerSquareFoot = some (pr / s)) ∧
    ((∀ pr s, p.price = some pr → p.squareFeet = some s → pr = 0 ∨ ¬(0 < s)) →
      (∀ pr ts, p.price = some pr → p.totalSquareFeet = some ts → pr = 0 ∨ ¬(0 < ts)) →
      (calculateDerivedFields p).pricePerSquareFoot = none) ∧
    (∀ pr a, p.price = some pr → pr ≠ 0 → p.acreage = some a → 0 < a →
      (calculateDerivedFields p).pricePerAcre = some (pr / a)) ∧
    ((∀ pr a, p.price = some pr → p.acreage = some a → pr = 0 ∨ ¬(0 < a)) →
      (calculateDerivedFields p).pricePerAcre = none) := by
  obtain ⟨price, acreage, squareFeet, totalSquareFeet⟩ := p
  refine ⟨?_, ?_, ?_, ?_, ?_⟩
  · rintro pr ts rfl hpr rfl hts
    simp [calculateDerivedFields, hpr, hts]
  · rintro pr s rfl hpr rfl hs hts
    cases totalSquareFeet with
    | none => simp [calculateDerivedFields, hpr, hs]
    | some ts =>
      have hts' := hts ts rfl
      simp [calculateDerivedFields, hpr, hs, hts']
  · intro h1 h2
    cases price with
    | none => simp [calculateDerivedFields]
    | some pr =>
      have hsf : ∀ s, squareFeet = some s → pr = 0 ∨ ¬(0 < s) := fun s hs => h1 pr s rfl hs
      have htsf : ∀ ts, totalSquareFeet = some ts → pr = 0 ∨ ¬(0 < ts) :=
        fun ts hts => h2 pr ts rfl hts
      cases squareFeet with
      | none =>
        cases totalSquareFeet with
        | none => simp [calculateDerivedFields]
        | some ts =>
          rcases htsf ts rfl with h | h <;> simp [calculateDerivedFields, h]
      | some s =>
        rcases hsf s rfl with h | h
        · cases totalSquareFeet with
          | none => simp [calculateDerivedFields, h]
          | some ts => simp [calculateDerivedFields, h]
        · cases totalSquareFeet with
          | none => simp [calculateDerivedFields, h]
          | some ts =>
            rcases htsf ts rfl with h2' | h2' <;> simp [calculateDerivedFields, h, h2']
  · rintro pr a rfl hpr rfl ha
    simp [calculateDerivedFields, hpr, ha]
  · intro h
    cases price with
    | none => simp [calculateDerivedFields]
    | some pr =>
      cases acreage with
      | none => simp [calculateDerivedFields]
      | some a =>
        rcases h pr a rfl rfl with h' | h' <;> simp [calculateDerivedFields, h']

/-- Witness for C6 (amended): with `price = 100`, `acreage = 4`,
`squareFeet = 10`, `totalSquareFeet = 50`, the result has
`pricePerSquareFoot = 2` (from `totalSquareFeet`) and
`pricePerAcre = 25`. -/
theorem c6_calculateDerivedFields_witness :
    (calculateDerivedFields ⟨some 100, some 4, some 10, some 50⟩).pricePerSquareFoot =
      some 2 ∧
    (calculateDerivedFields ⟨some 100, some 4, some 10, some 50⟩).pricePerAcre = some 25 := by
  have h := c6_calculateDerivedFields_amended ⟨some 100, some 4, some 10, some 50⟩
  constructor
  · have h1 := h.1 100 50 rfl (by norm_num) rfl (by norm_num)
    rw [h1]
    norm_num
  · have h2 := h.2.2.2.1 100 4 rfl (by norm_num) rfl (by norm_num)
    rw [h2]
    norm_num

/-- C7: `HaysCADScraper.searchByPropertyId` resolves an HTTP 404 or a
301/302 redirect to `null` rather than an error, and any 2xx response
to the non-null detail URL `baseUrl/Property/View/{id}`. -/
theorem c7_searchByPropertyId_probe (propertyId status : ℕ) :
    ((status = 404 ∨ status = 301 ∨ status = 302) →
      searchByPropertyId propertyId status = .ok none) ∧
    (200 ≤ status → status < 300 →
      searchByPropertyId propertyId status =
        .ok (some (haysBaseUrl ++ "/Property/View/" ++ toString propertyId))) := by
  constructor
  · rintro (rfl | rfl | rfl) <;> rfl
  · intro h1 h2
    have h404 : status ≠ 404 := by omega
    have h31 : (status = 301 || status = 302) = false := by
      simp only [Bool.or_eq_false_iff, decide_eq_false_iff_not]
      omega
    have hok : responseOk status = true := by
      simp only [responseOk, Bool.and_eq_true, decide_eq_true_eq]
      omega
    simp [searchByPropertyId, h404, h31, hok]

/-- Witness for C7: probing id 123456 with a 404 yields `null`, with a
200 the detail URL. -/
theorem c7_searchByPropertyId_witness :
    searchByPropertyId 123456 404 = .ok none ∧
    searchByPropertyId 123456 200 =
      .ok (some (haysBaseUrl ++ "/Property/View/" ++ toString 123456)) :=
  ⟨(c7_searchByPropertyId_probe 123456 404).1 (Or.inl rfl),
   (c7_searchByPropertyId_probe 123456 200).2 (by norm_num) (by norm_num)⟩

/-- C8: `canMakeRequest` first prunes the stored timestamps to the ones
strictly inside the `windowMs` window and admits if and only if the
remaining count is below `ceil(requestsPerSecond * windowMs / 1000)`;
that ceiling is 1 for every domain's configuration (including the 0.5
req/s over 2000 ms default), so any stored timestamp still inside the
window makes the default-domain admission check refuse — at most one
request per window. -/
theorem c8_canMakeRequest_window_admission :
    (∀ (config : RateLimitConfig) (requests : List ℤ) (now : ℤ),
      ((canMakeRequest config (some requests) now).1 = true ↔
        (((requests.filter (fun t => now - config.windowMs < t)).length : ℤ) <
          maxRequests config)) ∧
      (canMakeRequest config (some requests) now).2 =
        requests.filter (fun t => now - config.windowMs < t)) ∧
    (∀ domain : String, maxRequests (getRateLimitConfig domain) = 1) ∧
    (∀ (requests : List ℤ) (now t : ℤ), t ∈ requests →
      now - defaultRateConfig.windowMs < t →
      (canMakeRequest defaultRateConfig (some requests) now).1 = false) := by
  refine ⟨?_, ?_, ?_⟩
  · intro config requests now
    constructor
    · simp [canMakeRequest]
    · simp [canMakeRequest]
  · intro domain
    unfold getRateLimitConfig defaultRateConfig maxRequests
    split_ifs <;> norm_num
  · intro requests now t ht hwin
    have hmem : t ∈ requests.filter (fun x => now - defaultRateConfig.windowMs < x) :=
      List.mem_filter.mpr ⟨ht, by simpa using hwin⟩
    have hlen : 1 ≤ (requests.filter (fun x => now - defaultRateConfig.windowMs < x)).length :=
      List.length_pos.mpr (List.ne_nil_of_mem hmem)
    have hmax : maxRequests defaultRateConfig = 1 := by
      unfold maxRequests defaultRateConfig
      norm_num
    simp only [canMakeRequest, hmax, decide_eq_false_iff_not, not_lt]
    exact_mod_cast hlen

/-- Witness for C8: a request recorded at 1500 blocks an admission check
at 3000 under the default window, and the hayscad.org configuration
also caps the window at one request. -/
theorem c8_canMakeRequest_witness :
    (canMakeRequest defaultRateConfig (some [1500]) 3000).1 = false ∧
    maxRequests (getRateLimitConfig "hayscad.org") = 1 :=
  ⟨c8_canMakeRequest_window_admission.2.2 [1500] 3000 1500 (by decide) (by decide),
   c8_canMakeRequest_window_admission.2.1 "hayscad.org"⟩

/-- C9: `calculateCompletenessScore` is monotone in field presence:
if every scored field (the type-specific required fields, the location
fields, the type-specific detail fields, and the directly looked-up
market and SEO fields) that is present in `data` is still present in
`data'`, the score cannot decrease.  Filling in a missing required
field while holding everything else constant is an instance of the
hypotheses, so doing so never lowers the score. -/
theorem c9_completenessScore_monotone (data data' : JsVal) (propertyType : String)
    (hnested : ∀ p ∈ getRequiredFieldsForType propertyType ++ locationFields ++
        getDetailFieldsForType propertyType,
      isMissing (getNestedValue data p) = false → isMissing (getNestedValue data' p) = false)
    (hdirect : ∀ p ∈ marketFields ++ seoFields,
      isMissing (getField data p) = false → isMissing (getField data' p) = false) :
    calculateCompletenessScore data propertyType ≤
      calculateCompletenessScore data' propertyType := by
  unfold calculateCompletenessScore
  apply round_mono_q
  unfold completenessScoreQ
  have himp : ∀ (l : List String),
      (∀ p ∈ l, isMissing (getNestedValue data p) = false →
        isMissing (getNestedValue data' p) = false) →
      presentCount data l ≤ presentCount data' l := by
    intro l hl
    apply length_filter_mono
    intro a ha hpa
    simp only [Bool.not_eq_true'] at hpa ⊢
    exact hl a ha hpa
  have himpd : ∀ (l : List String),
      (∀ p ∈ l, isMissing (getField data p) = false →
        isMissing (getField data' p) = false) →
      presentCountDirect data l ≤ presentCountDirect data' l := by
    intro l hl
    apply length_filter_mono
    intro a ha hpa
    simp only [Bool.not_eq_true'] at hpa ⊢
    exact hl a ha hpa
  have h1 : presentCount data (getRequiredFieldsForType propertyType) ≤
      presentCount data' (getRequiredFieldsForType propertyType) :=
    himp _ (fun p hp => hnested p (by simp [hp]))
  have h2 : presentCount data locationFields ≤ presentCount data' locationFields :=
    himp _ (fun p hp => hnested p (by simp [hp]))
  have h3 : presentCount data (getDetailFieldsForType propertyType) ≤
      presentCount data' (getDetailFieldsForType propertyType) :=
    himp _ (fun p hp => hnested p (by simp [hp]))
  have h4 : presentCountDirect data marketFields ≤ presentCountDirect data' marketFields :=
    himpd _ (fun p hp => hdirect p (by simp [hp]))
  have h5 : presentCountDirect data seoFields ≤ presentCountDirect data' seoFields :=
    himpd _ (fun p hp => hdirect p (by simp [hp]))
  have g1 := presentCount_div_mono _ _ ((getRequiredFieldsForType propertyType).length) 40
    (by norm_num) h1
  have g2 := presentCount_div_mono _ _ (locationFields.length) 20 (by norm_num) h2
  have g3 := presentCount_div_mono _ _ ((getDetailFieldsForType propertyType).length) 20
    (by norm_num) h3
  have g4 := presentCount_div_mono _ _ (marketFields.length) 10 (by norm_num) h4
  have g5 := presentCount_div_mono _ _ (seoFields.length) 10 (by norm_num) h5
  linarith

/-- Witness for C9: filling `price` into the empty land record does not
decrease its completeness score. -/
theorem c9_completenessScore_witness :
    calculateCompletenessScore (JsVal.obj []) "land" ≤
      calculateCompletenessScore (JsVal.obj [("price", JsVal.num 5)]) "land" :=
  c9_completenessScore_monotone (JsVal.obj []) (JsVal.obj [("price", JsVal.num 5)]) "land"
    (by decide) (by decide)

/-- C10: after `registerScraper(sourceId, C)` succeeds for a non-empty
identifier and a class extending `BaseScraper`, `createScraper(s)`
returns an instance of `C` for every `s` equal to `sourceId` up to
letter case, the lowercased identifier is listed by
`getAvailableSources()`, and `createScraper` of any identifier whose
lowercasing is not registered throws an error naming the available
sources. -/
theorem c10_registry_case_insensitive_roundtrip
    (registry registry' : List (String × ScraperClass)) (sourceId s : String)
    (c : ScraperClass)
    (hne : sourceId ≠ "")
    (hreg : registerScraper registry sourceId true c = .ok registry')
    (hcase : toLowerCase s = toLowerCase sourceId) :
    createScraper registry' s = .ok c ∧
    toLowerCase sourceId ∈ getAvailableSources registry' ∧
    ∀ s₂, lookupSource registry' (toLowerCase s₂) = none →
      createScraper registry' s₂ = .error ("Unknown scraper source: " ++ s₂ ++
        ". Available sources: " ++ String.intercalate ", " (getAvailableSources registry')) := by
  have hreg' : registry' = setSource registry (toLowerCase sourceId) c := by
    unfold registerScraper at hreg
    rw [if_neg hne] at hreg
    simp at hreg
    exact hreg.symm
  subst hreg'
  refine ⟨?_, ?_, ?_⟩
  · unfold createScraper
    rw [hcase, lookupSource_setSource_self]
  · exact mem_getAvailableSources_setSource registry (toLowerCase sourceId) c
  · intro s₂ hnone
    unfold createScraper
    rw [hnone]

/-- Witness for C10: registering "WilliamsonCAD" as class 7 lets
`createScraper "WILLIAMSONCAD"` find it, lists "williamsoncad", and an
unregistered source errors with the available sources. -/
theorem c10_registry_witness :
    createScraper wcadRegistry "WILLIAMSONCAD" = .ok 7 ∧
    toLowerCase "WilliamsonCAD" ∈ getAvailableSources wcadRegistry ∧
    createScraper wcadRegistry "nosuch" = .error ("Unknown scraper source: " ++ "nosuch" ++
      ". Available sources: " ++ String.intercalate ", " (getAvailableSources wcadRegistry)) := by
  have h := c10_registry_case_insensitive_roundtrip initialScraperRegistry wcadRegistry
    "WilliamsonCAD" "WILLIAMSONCAD" 7 (by decide) rfl (by decide)
  exact ⟨h.1, h.2.1, h.2.2 "nosuch" (by decide)⟩
